import Mathlib

/-!
Shallow embedding of the agentic tool-execution core of the `bast` CLI
(package `internal/tools` and the agent loop of the Anthropic provider).

External effects (HTTP transport to the policy service, subprocess
execution, the filesystem) are modelled as oracle functions supplied in
environment records; fallible operations return `Except`.  Side effects
that matter to the specification (whether a capability's `Execute` ran,
whether the policy client was consulted, whether output was scanned,
what was logged) are made observable through an explicit event trace.
-/

namespace Bast

/-- `internal/tools` `Result`: the output of one tool execution. -/
structure Result where
  output : String
  isError : Bool
deriving Repr, DecidableEq

/-- `internal/tools` `Call`: a tool call requested by the model.
`input` is the raw JSON argument blob; `none` models a nil
`json.RawMessage`. -/
structure Call where
  id : String
  name : String
  input : Option String
deriving Repr, DecidableEq

/-- `internal/tools` `CallResult`: the result of executing a tool call. -/
structure CallResult where
  callID : String
  content : String
  isError : Bool
deriving Repr, DecidableEq

/-- `internal/tools` `ValidationAction` (bastio security client). -/
inductive ValidationAction where
  | allow
  | block
  | requireApproval
  | warn
deriving Repr, DecidableEq

/-- `internal/tools` `ValidationResult`.  The advisory `risk_score`
(float64) is omitted: it is never read by the enforcement logic. -/
structure ValidationResult where
  action : ValidationAction
  threatsDetected : List String
  message : String
  approvalID : String
deriving Repr, DecidableEq

/-- `internal/tools` `ScanAction` (bastio security client). -/
inductive ScanAction where
  | allow
  | sanitize
  | block
  | warn
deriving Repr, DecidableEq

/-- `internal/tools` `ScanResult`.  The advisory `risk_score` (float64)
is omitted: it is never read by the enforcement logic. -/
structure ScanResult where
  action : ScanAction
  processedContent : String
  threatsDetected : List String
  message : String
deriving Repr, DecidableEq

/-- A capability (`Tool` interface): a name and an execution function.
`exec` models `Execute(ctx, input) (*Result, error)`; the `error ≠ nil`
case is `Except.error`.  The schema/description strings play no role in
the registry's enforcement logic and are kept only where needed. -/
structure Tool where
  name : String
  description : String
  exec : Option String → Except String Result

/-- `BastioSecurityClient`, with the two synchronous HTTP operations
modelled as oracle functions.  A transport failure, non-2xx status, or
malformed body is the `Except.error` case, exactly the situations in
which `ValidateToolCall` / `ScanContent` return a non-nil Go error. -/
structure SecurityClient where
  validate : Call → Except String ValidationResult
  scan : String → String → Except String ScanResult

/-- Observable events of one `ExecuteCall`: consulting the policy
client, running a capability, scanning output, logging a warning. -/
inductive Event where
  | validate (call : Call)
  | execTool (name : String) (input : Option String)
  | scanOutput (toolName : String) (output : String)
  | warnLog (toolName : String) (message : String) (threats : List String)
deriving Repr, DecidableEq

/-- `Registry`: the capability map (represented by its list of bindings
in insertion order) and the optional security client.  The `sync.RWMutex`
is not represented: the embedding is of the sequential semantics the lock
guarantees. -/
structure Registry where
  tools : List (String × Tool)
  security : Option SecurityClient

/-- `NewRegistry`. -/
def Registry.new : Registry :=
  { tools := [], security := none }

/-- `Registry.Get`: map lookup by name. -/
def Registry.get (r : Registry) (name : String) : Option Tool :=
  (r.tools.find? (fun p => p.1 == name)).map (fun p => p.2)

/-- `Registry.Register`: reject a duplicate name, otherwise store the
tool under its name. -/
def Registry.register (r : Registry) (tool : Tool) : Except String Registry :=
  if (r.tools.find? (fun p => p.1 == tool.name)).isSome then
    Except.error ("tool \"" ++ tool.name ++ "\" already registered")
  else
    Except.ok { r with tools := r.tools ++ [(tool.name, tool)] }

/-- `Registry.List`.  The Go code ranges over the map `r.tools`; Go map
iteration order is unspecified, so iteration is modelled by an explicit
argument `bindings`, an arbitrary permutation of the registry's bindings
chosen by the runtime. -/
def Registry.listWith (bindings : List (String × Tool)) : List Tool :=
  bindings.map (fun p => p.2)

/-- `Registry.Execute`: look the tool up and run it.  An unknown name
yields an error `Result` without running anything. -/
def Registry.execute (r : Registry) (name : String) (input : Option String) :
    Except String Result × List Event :=
  match r.get name with
  | none =>
      (Except.ok { output := "unknown tool: " ++ name, isError := true }, [])
  | some tool =>
      (tool.exec input, [Event.execTool name input])

/-- The final `CallResult` built from an execution `Result`
(`CallResult{CallID: call.ID, Content: result.Output, IsError: result.IsError}`). -/
def CallResult.ofResult (call : Call) (res : Result) : CallResult :=
  { callID := call.id, content := res.output, isError := res.isError }

/-- The execution-and-scan tail of `Registry.ExecuteCall` (everything
after the pre-execution validation branch): run the tool, then, if a
security client is configured and the execution succeeded with non-empty
output, scan the output and enforce the scan action. -/
def Registry.executeCallBody (r : Registry) (call : Call) : CallResult × List Event :=
  match r.execute call.name call.input with
  | (Except.error e, execEvents) =>
      ({ callID := call.id, content := "error executing tool: " ++ e, isError := true },
       execEvents)
  | (Except.ok result, execEvents) =>
      match r.security with
      | none => (CallResult.ofResult call result, execEvents)
      | some security =>
          if result.output != "" && !result.isError then
            match security.scan call.name result.output with
            | Except.error e =>
                -- scan transport error: log and fail open, keep the output
                (CallResult.ofResult call result,
                 execEvents ++ [Event.scanOutput call.name result.output,
                   Event.warnLog call.name ("content scan failed: " ++ e) []])
            | Except.ok scanResult =>
                match scanResult.action with
                | ScanAction.block =>
                    ({ callID := call.id,
                       content := "Output blocked by security policy: " ++ scanResult.message,
                       isError := true },
                     execEvents ++ [Event.scanOutput call.name result.output])
                | ScanAction.sanitize =>
                    (CallResult.ofResult call { result with output := scanResult.processedContent },
                     execEvents ++ [Event.scanOutput call.name result.output])
                | ScanAction.warn =>
                    (CallResult.ofResult call result,
                     execEvents ++ [Event.scanOutput call.name result.output,
                       Event.warnLog call.name ("content warning: " ++ scanResult.message)
                         scanResult.threatsDetected])
                | ScanAction.allow =>
                    (CallResult.ofResult call result,
                     execEvents ++ [Event.scanOutput call.name result.output])
          else
            (CallResult.ofResult call result, execEvents)

/-- `Registry.ExecuteCall`: if a security client is configured, validate
the call first; `block` and `require_approval` return an error result
without executing; `warn` logs and proceeds; `allow` proceeds; a
validation transport error logs a warning and proceeds (fail-open). -/
def Registry.executeCall (r : Registry) (call : Call) : CallResult × List Event :=
  match r.security with
  | none => r.executeCallBody call
  | some security =>
      match security.validate call with
      | Except.error e =>
          -- validation transport error: log but do not block execution
          let body := r.executeCallBody call
          (body.1,
           Event.validate call ::
             Event.warnLog call.name ("validation failed: " ++ e) [] :: body.2)
      | Except.ok validationResult =>
          match validationResult.action with
          | ValidationAction.block =>
              ({ callID := call.id,
                 content := "Blocked by security policy: " ++ validationResult.message,
                 isError := true },
               [Event.validate call])
          | ValidationAction.requireApproval =>
              ({ callID := call.id,
                 content := "Requires human approval: " ++ validationResult.message,
                 isError := true },
               [Event.validate call])
          | ValidationAction.warn =>
              let body := r.executeCallBody call
              (body.1,
               Event.validate call ::
                 Event.warnLog call.name validationResult.message
                   validationResult.threatsDetected :: body.2)
          | ValidationAction.allow =>
              let body := r.executeCallBody call
              (body.1, Event.validate call :: body.2)

/-! ## Plugin loader (`internal/tools/loader.go`) -/

/-- `PluginParameter`: one declared parameter of a plugin manifest. -/
structure PluginParameter where
  name : String
  type : String
  description : String
  required : Bool
  enum : List String
deriving Repr, DecidableEq

/-- `PluginManifest`: the YAML structure for a user-defined tool.
A zero YAML field decodes to the empty string / `0`. -/
structure PluginManifest where
  name : String
  description : String
  command : String
  script : String
  parameters : List PluginParameter
  timeout : Nat
deriving Repr, DecidableEq

/-- `PluginTool`: a loaded manifest plus the directory containing it. -/
structure PluginTool where
  manifest : PluginManifest
  basePath : String
deriving Repr, DecidableEq

/-- `loadPlugin`: reading and YAML-decoding the manifest file are
external I/O, modelled by the given `parsed` outcome (its `error` case
covers both a read failure and a YAML parse failure).  The validation
performed on a decoded manifest is exactly the source's: non-empty
name, non-empty description, and at least one of command or script. -/
def loadPlugin (parsed : Except String PluginManifest) (basePath : String) :
    Except String PluginTool :=
  match parsed with
  | Except.error e => Except.error ("failed to load manifest: " ++ e)
  | Except.ok manifest =>
      if manifest.name = "" then
        Except.error "manifest missing required field: name"
      else if manifest.description = "" then
        Except.error "manifest missing required field: description"
      else if manifest.command = "" && manifest.script = "" then
        Except.error "manifest must have either command or script"
      else
        Except.ok { manifest := manifest, basePath := basePath }

/-- `LoadPlugins`, from the point where the directory entries have been
enumerated: each candidate manifest is loaded with `loadPlugin`; a
failure is logged as a warning and skipped, never fatal to the batch. -/
def loadPlugins (entries : List (Except String PluginManifest × String)) :
    List PluginTool :=
  entries.foldl
    (fun plugins entry =>
      match loadPlugin entry.1 entry.2 with
      | Except.error _ => plugins
      | Except.ok plugin => plugins ++ [plugin])
    []

/-- Modelled from the spec (§3, for comparison only): "must declare
exactly a command or a script, and must have non-empty name and
description".  Read with "exactly" as exclusive: exactly one of the two
execution sources is declared. -/
def manifestAcceptedPerSpec (m : PluginManifest) : Bool :=
  m.name != "" && m.description != "" &&
    ((m.command != "" && m.script = "") || (m.command = "" && m.script != ""))

/-! ## Built-in capabilities (`internal/tools/builtin.go`)

Path resolution (`filepath.Abs`, `filepath.Join`, `filepath.Dir`) and
the filesystem / subprocess operations are external to the pure logic
and are supplied as an environment of oracle functions.  `filepath.IsAbs`
on Unix is a leading slash and is embedded directly. -/

/-- `MaxOutputSize`: maximum size of tool output. -/
def maxOutputSize : Nat := 10000

/-- Output truncation applied by the built-in tools, with the given
marker suffix. -/
def truncateOutput (s : String) (marker : String) : String :=
  if s.length > maxOutputSize then (s.take maxOutputSize) ++ marker else s

/-- `strings.HasPrefix(s, pre)`: the characters of `pre` are an initial
segment of the characters of `s`. -/
def strStartsWith (s pre : String) : Bool :=
  pre.data.isPrefixOf s.data

/-- `filepath.IsAbs` (Unix). -/
def isAbsPath (p : String) : Bool :=
  strStartsWith p "/"

/-- Path-resolution oracles shared by the built-in tools: the process
working directory, `filepath.Abs`, and `filepath.Join`. -/
structure PathEnv where
  cwd : String
  abs : String → String
  join : String → String → String

/-- The path-resolution step shared by the file tools: a relative path
is joined onto the working directory. -/
def resolvePath (env : PathEnv) (p : String) : String :=
  if isAbsPath p then p else env.join env.cwd p

/-- `os.FileInfo` as far as the tools consult it. -/
structure FileInfo where
  size : Nat
  isDir : Bool
deriving Repr, DecidableEq

/-- Parsed input of `read_file` (`readFileInput`). -/
structure ReadFileInput where
  path : String
deriving Repr, DecidableEq

/-- Filesystem oracles for `read_file`. -/
structure ReadFsEnv extends PathEnv where
  stat : String → Except String FileInfo
  readFile : String → Except String String

/-- `ReadFileTool`. -/
structure ReadFileTool where
  allowedDir : String
deriving Repr, DecidableEq

/-- `ReadFileTool.Execute`, after JSON decoding of the input (decoding
itself is external; a decode failure returns an "invalid input" error
result before this logic runs). -/
def ReadFileTool.execute (t : ReadFileTool) (env : ReadFsEnv)
    (params : ReadFileInput) : Result :=
  if params.path = "" then
    { output := "path is required", isError := true }
  else
    let path := resolvePath env.toPathEnv params.path
    if t.allowedDir != "" && !(strStartsWith (env.abs path) (env.abs t.allowedDir)) then
      { output := "file path outside allowed directory", isError := true }
    else
      match env.stat path with
      | Except.error e =>
          { output := "cannot access file: " ++ e, isError := true }
      | Except.ok info =>
          if info.isDir then
            { output := "path is a directory, not a file", isError := true }
          else
            match env.readFile path with
            | Except.error e =>
                { output := "failed to read file: " ++ e, isError := true }
            | Except.ok content =>
                { output := truncateOutput content "\n... (file truncated)",
                  isError := false }

/-- Parsed input of `write_file` (`writeFileInput`). -/
structure WriteFileInput where
  path : String
  content : String
deriving Repr, DecidableEq

/-- Filesystem oracles for `write_file`, including `filepath.Dir` and
`os.MkdirAll` / `os.WriteFile`. -/
structure WriteFsEnv extends PathEnv where
  dirOf : String → String
  mkdirAll : String → Except String Unit
  writeFile : String → String → Except String Unit

/-- `WriteFileTool`. -/
structure WriteFileTool where
  allowedDir : String
deriving Repr, DecidableEq

/-- `WriteFileTool.Execute`, after JSON decoding of the input. -/
def WriteFileTool.execute (t : WriteFileTool) (env : WriteFsEnv)
    (params : WriteFileInput) : Result :=
  if params.path = "" then
    { output := "path is required", isError := true }
  else
    let path := resolvePath env.toPathEnv params.path
    if t.allowedDir != "" && !(strStartsWith (env.abs path) (env.abs t.allowedDir)) then
      { output := "file path outside allowed directory", isError := true }
    else
      match env.mkdirAll (env.dirOf path) with
      | Except.error e =>
          { output := "failed to create directory: " ++ e, isError := true }
      | Except.ok _ =>
          match env.writeFile path params.content with
          | Except.error e =>
              { output := "failed to write file: " ++ e, isError := true }
          | Except.ok _ =>
              { output := "Successfully wrote " ++ toString params.content.length
                  ++ " bytes to " ++ path,
                isError := false }

/-- Parsed input of `run_command` (`runCommandInput`). -/
structure RunCommandInput where
  command : String
  workingDir : String
deriving Repr, DecidableEq

/-- Outcome of the subprocess run of `sh -c command` in a working
directory: combined output on success; combined output plus the exit
error on failure; or a deadline-exceeded timeout. -/
inductive CmdOutcome where
  | ok (output : String)
  | exitError (output : String) (err : String)
  | timedOut
deriving Repr, DecidableEq

/-- Subprocess oracle for `run_command`. -/
structure CmdEnv extends PathEnv where
  run : String → String → CmdOutcome

/-- `RunCommandTool`. -/
structure RunCommandTool where
  allowedDir : String
deriving Repr, DecidableEq

/-- `RunCommandTool.Execute`, after JSON decoding of the input. -/
def RunCommandTool.execute (t : RunCommandTool) (env : CmdEnv)
    (params : RunCommandInput) : Result :=
  if params.command = "" then
    { output := "command is required", isError := true }
  else
    let workDir := if params.workingDir = "" then env.cwd else params.workingDir
    if t.allowedDir != "" && !(strStartsWith (env.abs workDir) (env.abs t.allowedDir)) then
      { output := "working directory outside allowed path", isError := true }
    else
      match env.run params.command workDir with
      | CmdOutcome.timedOut =>
          { output := "command timed out after 30 seconds", isError := true }
      | CmdOutcome.exitError out err =>
          { output := truncateOutput out "\n... (output truncated)"
              ++ "\nExit error: " ++ err,
            isError := true }
      | CmdOutcome.ok out =>
          { output := truncateOutput out "\n... (output truncated)",
            isError := false }

/-- Parsed input of `list_directory` (`listDirectoryInput`). -/
structure ListDirectoryInput where
  path : String
  showHidden : Bool
deriving Repr, DecidableEq

/-- One `os.DirEntry` as far as the tool consults it: name, whether it
is a directory, and the `Info()` result (size or an error). -/
structure DirEntry where
  name : String
  isDir : Bool
  info : Except String Nat
deriving Repr

/-- Filesystem oracles for `list_directory`. -/
structure ListFsEnv extends PathEnv where
  readDir : String → Except String (List DirEntry)

/-- `ListDirectoryTool`. -/
structure ListDirectoryTool where
  allowedDir : String
deriving Repr, DecidableEq

/-- Formatting of one directory entry. -/
def formatDirEntry (entry : DirEntry) : String :=
  match entry.info with
  | Except.error _ => entry.name ++ " (error getting info)"
  | Except.ok size =>
      if entry.isDir then entry.name ++ "/"
      else entry.name ++ " (" ++ toString size ++ " bytes)"

/-- `ListDirectoryTool.Execute`, after JSON decoding of the input. -/
def ListDirectoryTool.execute (t : ListDirectoryTool) (env : ListFsEnv)
    (params : ListDirectoryInput) : Result :=
  let path0 := if params.path = "" then env.cwd else params.path
  let path := resolvePath env.toPathEnv path0
  if t.allowedDir != "" && !(strStartsWith (env.abs path) (env.abs t.allowedDir)) then
    { output := "directory path outside allowed directory", isError := true }
  else
    match env.readDir path with
    | Except.error e =>
        { output := "failed to read directory: " ++ e, isError := true }
    | Except.ok entries =>
        let lines := (entries.filter
            (fun entry => params.showHidden || !(strStartsWith entry.name "."))).map
          formatDirEntry
        if lines = [] then { output := "(empty directory)", isError := false }
        else { output := String.intercalate "\n" lines, isError := false }

/-! ## Agent loop (`AnthropicProvider.RunAgent`)

The Completion Service is external; one run is determined by the
sequence of responses it returns, modelled as an oracle from the turn
index to either a transport error or a list of content blocks.  The
system-prompt and transcript assembly is pure string construction that
feeds only the external service and does not affect the control flow
embedded here. -/

/-- One content block of a completion response: free text or a
`tool_use` request (`input = none` models a nil raw input). -/
inductive Block where
  | text (s : String)
  | toolUse (id : String) (name : String) (input : Option String)
deriving Repr, DecidableEq

/-- `ToolCall`: the caller-visible audit record of one invocation. -/
structure ToolCall where
  id : String
  name : String
  input : Option String
  output : String
  isError : Bool
deriving Repr, DecidableEq

/-- `AgentResult`: final response, ordered tool-call trace, and the
number of completed turns. -/
structure AgentResult where
  response : String
  toolCalls : List ToolCall
  iterations : Nat
deriving Repr, DecidableEq

/-- The three return points of `RunAgent`: `(result, nil)` on a turn
with no tool results, `(nil, err)` on an API transport error, and
`(result, maxIterationsErr)` on iteration exhaustion. -/
inductive RunOutcome where
  | done (res : AgentResult)
  | apiError (msg : String)
  | maxIterationsReached (res : AgentResult) (maxIterations : Nat)
deriving Repr, DecidableEq

/-- Accumulator for processing the blocks of one response: the turn's
free text, the tool calls recorded this turn, and the number of tool
results collected (which drives loop continuation). -/
structure TurnAcc where
  responseText : String
  toolCalls : List ToolCall
  toolResults : Nat
deriving Repr, DecidableEq

/-- Processing of one content block: text accumulates; a `tool_use`
with an empty name is defensively skipped with a warning; otherwise a
`ToolCall` is recorded, and when a registry is configured the call is
executed through `Registry.ExecuteCall` and a tool result is collected
for the next turn. -/
def processBlock (reg : Option Registry) (acc : TurnAcc) (b : Block) : TurnAcc :=
  match b with
  | Block.text s => { acc with responseText := acc.responseText ++ s }
  | Block.toolUse id name input =>
      if name = "" then acc
      else
        match reg with
        | none =>
            { acc with toolCalls := acc.toolCalls ++
                [{ id := id, name := name, input := input,
                   output := "", isError := false }] }
        | some r =>
            let callResult := (r.executeCall { id := id, name := name, input := input }).1
            { acc with
              toolCalls := acc.toolCalls ++
                [{ id := id, name := name, input := input,
                   output := callResult.content, isError := callResult.isError }],
              toolResults := acc.toolResults + 1 }

/-- Processing of all blocks of one response, in order. -/
def processBlocks (reg : Option Registry) (blocks : List Block) : TurnAcc :=
  blocks.foldl (processBlock reg)
    { responseText := "", toolCalls := [], toolResults := 0 }

/-- The agentic loop of `RunAgent`.  `remaining` counts the loop
iterations still permitted (`maxIterations - iteration`); each turn sets
`iterations := iteration + 1`, submits to the Completion Service, and
either finishes (no tool results), errors (transport failure), or
continues with the accumulated tool calls. -/
def runAgentAux (reg : Option Registry)
    (completion : Nat → Except String (List Block)) (maxIterations : Nat) :
    Nat → Nat → AgentResult → RunOutcome
  | 0, _, acc => RunOutcome.maxIterationsReached acc maxIterations
  | remaining + 1, iteration, acc =>
      let acc := { acc with iterations := iteration + 1 }
      match completion iteration with
      | Except.error e => RunOutcome.apiError ("failed to run agent: " ++ e)
      | Except.ok blocks =>
          let turn := processBlocks reg blocks
          let acc := { acc with toolCalls := acc.toolCalls ++ turn.toolCalls }
          if turn.toolResults = 0 then
            RunOutcome.done { acc with response := turn.responseText.trim }
          else
            runAgentAux reg completion maxIterations remaining (iteration + 1) acc

/-- `DefaultMaxIterations`. -/
def defaultMaxIterations : Nat := 10

/-- `RunAgent`: apply the default when `maxIterations = 0`, then run the
loop from turn 0 with an empty result. -/
def runAgent (reg : Option Registry)
    (completion : Nat → Except String (List Block)) (maxIterations : Nat) :
    RunOutcome :=
  let m := if maxIterations = 0 then defaultMaxIterations else maxIterations
  runAgentAux reg completion m m 0
    { response := "", toolCalls := [], iterations := 0 }

/-! ## Concrete fixtures for witnesses and counterexamples -/

/-- A spy capability: records nothing, returns a fixed success. -/
def wTool : Tool :=
  { name := "w_tool", description := "spy tool",
    exec := fun _ => Except.ok { output := "raw output", isError := false } }

/-- A second capability with a different name. -/
def wToolBeta : Tool :=
  { name := "beta_tool", description := "second tool",
    exec := fun _ => Except.ok { output := "beta output", isError := false } }

/-- A concrete call targeting `w_tool`. -/
def wCall : Call :=
  { id := "call-1", name := "w_tool", input := none }

/-- A concrete call targeting a name that is never registered. -/
def wCallUnknown : Call :=
  { id := "call-2", name := "missing_tool", input := none }

/-- A validation decision of `block`. -/
def vBlock : ValidationResult :=
  { action := ValidationAction.block, threatsDetected := ["exfiltration"],
    message := "dangerous call", approvalID := "" }

/-- A validation decision of `allow`. -/
def vAllow : ValidationResult :=
  { action := ValidationAction.allow, threatsDetected := [],
    message := "", approvalID := "" }

/-- A scan decision of `allow`. -/
def sAllow : ScanResult :=
  { action := ScanAction.allow, processedContent := "",
    threatsDetected := [], message := "" }

/-- A scan decision of `sanitize` carrying replacement content `X`. -/
def sSanitize : ScanResult :=
  { action := ScanAction.sanitize, processedContent := "X",
    threatsDetected := ["secrets"], message := "sanitized" }

/-- A security client that blocks every validation. -/
def secBlock : SecurityClient :=
  { validate := fun _ => Except.ok vBlock,
    scan := fun _ _ => Except.ok sAllow }

/-- A security client that allows validation and scanning. -/
def secAllow : SecurityClient :=
  { validate := fun _ => Except.ok vAllow,
    scan := fun _ _ => Except.ok sAllow }

/-- A security client that allows validation and sanitizes output. -/
def secSanitize : SecurityClient :=
  { validate := fun _ => Except.ok vAllow,
    scan := fun _ _ => Except.ok sSanitize }

/-- A security client whose validation fails at the transport level. -/
def secTransportFail : SecurityClient :=
  { validate := fun _ => Except.error "malformed JSON body",
    scan := fun _ _ => Except.ok sAllow }

/-- Registry with the spy tool and the blocking client. -/
def regBlock : Registry :=
  { tools := [("w_tool", wTool)], security := some secBlock }

/-- Registry with the spy tool and the sanitizing client. -/
def regSanitize : Registry :=
  { tools := [("w_tool", wTool)], security := some secSanitize }

/-- Registry with the spy tool and the transport-failing client. -/
def regTransportFail : Registry :=
  { tools := [("w_tool", wTool)], security := some secTransportFail }

/-- Empty registry with an allowing client (no tool registered). -/
def regEmptyAllow : Registry :=
  { tools := [], security := some secAllow }

/-- Registry with two tools and no security client. -/
def regTwo : Registry :=
  { tools := [("w_tool", wTool), ("beta_tool", wToolBeta)], security := none }

/-- Registry with just the spy tool and no security client. -/
def wAgentReg : Registry :=
  { tools := [("w_tool", wTool)], security := none }

/-- A completion-response block requesting one `w_tool` invocation. -/
def wBlocks : List Block :=
  [Block.toolUse "tu-1" "w_tool" none]

/-- A Completion Service that requests an invocation every turn. -/
def wCompletion : Nat → Except String (List Block) :=
  fun _ => Except.ok wBlocks

/-- The per-turn block sequence of `wCompletion`. -/
def wB : Nat → List Block :=
  fun _ => wBlocks

/-- A manifest that declares both a command and a script. -/
def mBoth : PluginManifest :=
  { name := "both", description := "declares both", command := "echo hi",
    script := "run.sh", parameters := [], timeout := 0 }

/-- A manifest missing its description. -/
def mNoDescription : PluginManifest :=
  { name := "nameless", description := "", command := "echo hi",
    script := "", parameters := [], timeout := 0 }

/-- A valid command-only manifest. -/
def mCommandOnly : PluginManifest :=
  { name := "cmd", description := "runs a command", command := "echo hi",
    script := "", parameters := [], timeout := 0 }

/-- A sandbox filesystem environment whose paths are already absolute
and clean (`abs` is the identity on them); the file read succeeds. -/
def wReadEnv : ReadFsEnv :=
  { cwd := "/sandbox-extra", abs := fun p => p,
    join := fun a b => a ++ "/" ++ b,
    stat := fun _ => Except.ok { size := 6, isDir := false },
    readFile := fun _ => Except.ok "secret" }

/-- Read tool sandboxed to `/sandbox`. -/
def wReadTool : ReadFileTool :=
  { allowedDir := "/sandbox" }

/-- A write environment over the same absolute, clean paths. -/
def wWriteEnv : WriteFsEnv :=
  { cwd := "/sandbox-extra", abs := fun p => p,
    join := fun a b => a ++ "/" ++ b,
    dirOf := fun _ => "/sandbox-extra",
    mkdirAll := fun _ => Except.ok (),
    writeFile := fun _ _ => Except.ok () }

/-- Write tool sandboxed to `/sandbox`. -/
def wWriteTool : WriteFileTool :=
  { allowedDir := "/sandbox" }

/-- A command environment over the same absolute, clean paths. -/
def wCmdEnv : CmdEnv :=
  { cwd := "/sandbox-extra", abs := fun p => p,
    join := fun a b => a ++ "/" ++ b,
    run := fun _ _ => CmdOutcome.ok "ran" }

/-- Command tool sandboxed to `/sandbox`. -/
def wCmdTool : RunCommandTool :=
  { allowedDir := "/sandbox" }

/-- The transport-failing client with its validation replaced by a
constant `allow` decision (same scan behavior). -/
def secAllowWithFailScan : SecurityClient :=
  { validate := fun _ => Except.ok vAllow,
    scan := secTransportFail.scan }

/-! ## Helper lemmas -/

/-- Appending anything to `pre` cannot produce a string whose character
data does not start with `pre`'s. -/
theorem append_ne_of_not_dataPrefix (pre e target : String)
    (h : ¬ pre.data <+: target.data) : pre ++ e ≠ target := by
  intro heq
  exact h ⟨e.data, by rw [← String.data_append pre e, heq]⟩

/-- Two strings differ when a character occurs in one but not the other. -/
theorem string_ne_of_mem_data (c : Char) (s t : String) (hc : c ∈ s.data)
    (hnc : ¬ c ∈ t.data) : s ≠ t :=
  fun h => hnc (h ▸ hc)

/-- The execution-and-scan tail preserves the call id in every branch. -/
theorem executeCallBody_callID (r : Registry) (call : Call) :
    (r.executeCallBody call).1.callID = call.id := by
  unfold Registry.executeCallBody
  split
  · rfl
  · split
    · rfl
    · split
      · split
        · rfl
        · split <;> rfl
      · rfl

/-- C10: For every call and every outcome branch of `Registry.ExecuteCall`
— policy block, approval rejection, execution error, scan block, sanitized
output, or normal success — the returned `CallResult`'s `CallID` equals
the input call's `ID`. -/
theorem c10_call_id_preserved (r : Registry) (call : Call) :
    (r.executeCall call).1.callID = call.id := by
  unfold Registry.executeCall
  split
  · exact executeCallBody_callID r call
  · split
    · exact executeCallBody_callID r call
    · split
      · rfl
      · rfl
      · exact executeCallBody_callID r call
      · exact executeCallBody_callID r call

/-- C6: `Register` fails with a duplicate-name error when a capability of
the same name already exists and in that case creates no new registry
state (the embedding is pure: the caller's registry value is untouched,
so the first registration is retained); otherwise it succeeds, appending
the binding, and the capability is subsequently found under its name. -/
theorem c6_register_duplicate (r : Registry) (tool : Tool) :
    ((r.get tool.name).isSome = true →
        r.register tool =
          Except.error ("tool \"" ++ tool.name ++ "\" already registered")) ∧
    ((r.get tool.name).isSome = false →
        r.register tool =
          Except.ok { r with tools := r.tools ++ [(tool.name, tool)] } ∧
        Registry.get { r with tools := r.tools ++ [(tool.name, tool)] } tool.name
          = some tool) := by
  have hguard : (r.tools.find? (fun p => p.1 == tool.name)).isSome
      = (r.get tool.name).isSome := by
    unfold Registry.get
    exact Option.isSome_map.symm
  constructor
  · intro h
    unfold Registry.register
    rw [hguard, if_pos h]
  · intro h
    have hnone : r.tools.find? (fun p => p.1 == tool.name) = none := by
      rw [← Option.not_isSome_iff_eq_none, hguard, h]
      simp
    constructor
    · unfold Registry.register
      rw [hguard, h]
      simp
    · unfold Registry.get
      rw [List.find?_append, hnone]
      simp [List.find?]

/-- Witness for C6 at concrete registries: a duplicate registration of
`w_tool` fails with the duplicate-name error, and a fresh registration
of `beta_tool` succeeds and is retrievable. -/
theorem c6_register_duplicate_witness :
    ((regTwo.get wTool.name).isSome = true ∧
      regTwo.register wTool =
        Except.error ("tool \"" ++ wTool.name ++ "\" already registered")) ∧
    ((wAgentReg.get wToolBeta.name).isSome = false ∧
      wAgentReg.register wToolBeta =
        Except.ok { wAgentReg with
          tools := wAgentReg.tools ++ [(wToolBeta.name, wToolBeta)] }) :=
  ⟨⟨rfl, (c6_register_duplicate regTwo wTool).1 rfl⟩,
   ⟨rfl, ((c6_register_duplicate wAgentReg wToolBeta).2 rfl).1⟩⟩

/-- C1: when the configured Policy Client's pre-execution validation
returns `block` (or `require_approval`), `ExecuteCall` returns an error
result whose content carries the validation message, and no capability's
`Execute` is ever invoked. -/
theorem c1_policy_block_no_execution (r : Registry) (call : Call)
    (sec : SecurityClient) (v : ValidationResult)
    (hsec : r.security = some sec)
    (hval : sec.validate call = Except.ok v)
    (hact : v.action = ValidationAction.block ∨
      v.action = ValidationAction.requireApproval) :
    (r.executeCall call).1.isError = true ∧
    (∃ pre, (r.executeCall call).1.content = pre ++ v.message) ∧
    (∀ name input, Event.execTool name input ∉ (r.executeCall call).2) := by
  rcases hact with h | h <;>
    simp only [Registry.executeCall, hsec, hval, h] <;>
    exact ⟨by trivial, ⟨_, rfl⟩, fun name input hmem => by simp at hmem⟩

/-- Witness for C1: with the blocking client configured, the spy tool's
call is rejected with the policy message and no execution event occurs. -/
theorem c1_policy_block_witness :
    regBlock.security = some secBlock ∧
    secBlock.validate wCall = Except.ok vBlock ∧
    vBlock.action = ValidationAction.block ∧
    ((regBlock.executeCall wCall).1.isError = true ∧
      (∃ pre, (regBlock.executeCall wCall).1.content = pre ++ vBlock.message) ∧
      (∀ name input, Event.execTool name input ∉ (regBlock.executeCall wCall).2)) :=
  ⟨rfl, rfl, rfl,
    c1_policy_block_no_execution regBlock wCall secBlock vBlock rfl rfl (Or.inl rfl)⟩

/-- The execution-and-scan tail does not depend on the security client's
validation function — only on its scan function. -/
theorem executeCallBody_ext_scan (ts : List (String × Tool))
    (s1 s2 : SecurityClient) (h : s1.scan = s2.scan) (call : Call) :
    Registry.executeCallBody { tools := ts, security := some s1 } call
      = Registry.executeCallBody { tools := ts, security := some s2 } call := by
  simp only [Registry.executeCallBody, Registry.execute, Registry.get, h]

/-- When the call's target is registered, the execution-and-scan tail
records an execution event for it. -/
theorem executeCallBody_mem_execTool (r : Registry) (call : Call) (t : Tool)
    (ht : r.get call.name = some t) :
    Event.execTool call.name call.input ∈ (r.executeCallBody call).2 := by
  unfold Registry.executeCallBody Registry.execute
  rw [ht]
  cases hexec : t.exec call.input with
  | error e => simp [hexec]
  | ok res =>
      cases hs : r.security with
      | none => simp [hexec, hs]
      | some security =>
          simp only [hexec, hs]
          split
          · split
            · simp
            · split <;> simp
          · simp

/-- C4: when pre-execution validation returns a transport or parse error,
`ExecuteCall` still invokes the registered capability's `Execute`, and
its result is identical to the one produced when validation returns
`allow` with the same scan behavior (fail-open). -/
theorem c4_fail_open (r : Registry) (call : Call) (sec : SecurityClient)
    (e : String) (t : Tool) (v : ValidationResult) (sec2 : SecurityClient)
    (hsec : r.security = some sec)
    (herr : sec.validate call = Except.error e)
    (ht : r.get call.name = some t)
    (hv : v.action = ValidationAction.allow)
    (hsec2 : sec2 = { validate := fun _ => Except.ok v, scan := sec.scan }) :
    Event.execTool call.name call.input ∈ (r.executeCall call).2 ∧
    (r.executeCall call).1 =
      (Registry.executeCall { tools := r.tools, security := some sec2 } call).1 := by
  have hr : ({ tools := r.tools, security := some sec } : Registry) = r := by
    rw [← hsec]
  have hbody : Registry.executeCallBody
        { tools := r.tools, security := some sec2 } call
      = r.executeCallBody call := by
    rw [← hr]
    exact (executeCallBody_ext_scan r.tools sec sec2 (by rw [hsec2]) call).symm
  have hlhs : r.executeCall call
      = ((r.executeCallBody call).1,
          Event.validate call ::
            Event.warnLog call.name ("validation failed: " ++ e) []
              :: (r.executeCallBody call).2) := by
    simp only [Registry.executeCall, hsec, herr]
  have hrhs : Registry.executeCall { tools := r.tools, security := some sec2 } call
      = ((r.executeCallBody call).1,
          Event.validate call :: (r.executeCallBody call).2) := by
    simp only [Registry.executeCall, hsec2, hv, hbody]
    rw [hsec2] at hbody
    simp only [hbody]
  constructor
  · rw [hlhs]
    exact List.mem_cons_of_mem _ (List.mem_cons_of_mem _
      (executeCallBody_mem_execTool r call t ht))
  · rw [hlhs, hrhs]

/-- Witness for C4: with a transport-failing validator, the spy tool
still executes and the result matches the allow-validating client. -/
theorem c4_fail_open_witness :
    regTransportFail.security = some secTransportFail ∧
    secTransportFail.validate wCall = Except.error "malformed JSON body" ∧
    regTransportFail.get wCall.name = some wTool ∧
    vAllow.action = ValidationAction.allow ∧
    (Event.execTool wCall.name wCall.input ∈ (regTransportFail.executeCall wCall).2 ∧
      (regTransportFail.executeCall wCall).1 =
        (Registry.executeCall { tools := regTransportFail.tools,
                                security := some secAllowWithFailScan } wCall).1) :=
  ⟨rfl, rfl, rfl, rfl,
    c4_fail_open regTransportFail wCall secTransportFail "malformed JSON body"
      wTool vAllow _ rfl rfl rfl rfl rfl⟩

/-- The scan-gating properties of the execution-and-scan tail, for any
invocation that reaches execution with a security client configured:
non-empty successful output is scanned, a `sanitize` decision replaces
the content exactly, and failed or empty output is never scanned. -/
theorem executeCallBody_scan_props (r : Registry) (call : Call)
    (sec : SecurityClient) (t : Tool) (res : Result)
    (hsec : r.security = some sec)
    (ht : r.get call.name = some t)
    (hexec : t.exec call.input = Except.ok res) :
    (res.isError = false → res.output ≠ "" →
        Event.scanOutput call.name res.output ∈ (r.executeCallBody call).2) ∧
    (res.isError = false → res.output ≠ "" →
        ∀ s, sec.scan call.name res.output = Except.ok s →
          s.action = ScanAction.sanitize →
          (r.executeCallBody call).1 =
            { callID := call.id, content := s.processedContent, isError := false }) ∧
    ((res.isError = true ∨ res.output = "") →
        ∀ n o, Event.scanOutput n o ∉ (r.executeCallBody call).2) := by
  refine ⟨?_, ?_, ?_⟩
  · intro hne hout
    have hcond : (res.output != "" && !res.isError) = true := by
      simp [hne, hout]
    cases hscan : sec.scan call.name res.output with
    | error e =>
        simp [Registry.executeCallBody, Registry.execute,
          hsec, ht, hexec, hcond, hscan]
    | ok s =>
        cases hs : s.action <;>
          simp [Registry.executeCallBody, Registry.execute,
            hsec, ht, hexec, hcond, hscan, hs]
  · intro hne hout s hscan hsan
    simp [Registry.executeCallBody, Registry.execute,
      CallResult.ofResult, hsec, ht, hexec, hne, hout, hscan, hsan]
  · intro hfail n o
    have hcond : (res.output != "" && !res.isError) = false := by
      rcases hfail with h | h <;> simp [h]
    simp [Registry.executeCallBody, Registry.execute,
      hsec, ht, hexec, hcond]

/-- C3: for EVERY invocation that reaches capability execution while a
Policy Client is configured — whether validation returned `allow`, or
`warn`, or failed at the transport level (fail-open) — when execution
succeeds with non-empty output `ExecuteCall` performs the post-execution
scan, and a `sanitize` decision with `processedContent = X` makes the
final content exactly `X` (the original output is never surfaced); when
execution failed or produced empty output, no scan is performed.  The
premise "execution happened" is the execution event in the trace. -/
theorem c3_scan_gating_and_sanitize (r : Registry) (call : Call)
    (sec : SecurityClient) (t : Tool) (res : Result)
    (hsec : r.security = some sec)
    (ht : r.get call.name = some t)
    (hexec : t.exec call.input = Except.ok res)
    (hran : Event.execTool call.name call.input ∈ (r.executeCall call).2) :
    (res.isError = false → res.output ≠ "" →
        Event.scanOutput call.name res.output ∈ (r.executeCall call).2) ∧
    (res.isError = false → res.output ≠ "" →
        ∀ s, sec.scan call.name res.output = Except.ok s →
          s.action = ScanAction.sanitize →
          (r.executeCall call).1 =
            { callID := call.id, content := s.processedContent, isError := false }) ∧
    ((res.isError = true ∨ res.output = "") →
        ∀ n o, Event.scanOutput n o ∉ (r.executeCall call).2) := by
  have hbody := executeCallBody_scan_props r call sec t res hsec ht hexec
  cases hval : sec.validate call with
  | error e =>
      have hcall : r.executeCall call
          = ((r.executeCallBody call).1,
             Event.validate call ::
               Event.warnLog call.name ("validation failed: " ++ e) []
                 :: (r.executeCallBody call).2) := by
        simp only [Registry.executeCall, hsec, hval]
      rw [hcall]
      refine ⟨fun h1 h2 => List.mem_cons_of_mem _
          (List.mem_cons_of_mem _ (hbody.1 h1 h2)),
        fun h1 h2 s hs ha => hbody.2.1 h1 h2 s hs ha,
        fun hf n o hmem => ?_⟩
      rcases List.mem_cons.mp hmem with h | h
      · exact absurd h (by simp)
      rcases List.mem_cons.mp h with h2 | h2
      · exact absurd h2 (by simp)
      · exact hbody.2.2 hf n o h2
  | ok v =>
      cases hact : v.action with
      | block =>
          exfalso
          simp [Registry.executeCall, hsec, hval, hact] at hran
      | requireApproval =>
          exfalso
          simp [Registry.executeCall, hsec, hval, hact] at hran
      | warn =>
          have hcall : r.executeCall call
              = ((r.executeCallBody call).1,
                 Event.validate call ::
                   Event.warnLog call.name v.message v.threatsDetected
                     :: (r.executeCallBody call).2) := by
            simp only [Registry.executeCall, hsec, hval, hact]
          rw [hcall]
          refine ⟨fun h1 h2 => List.mem_cons_of_mem _
              (List.mem_cons_of_mem _ (hbody.1 h1 h2)),
            fun h1 h2 s hs ha => hbody.2.1 h1 h2 s hs ha,
            fun hf n o hmem => ?_⟩
          rcases List.mem_cons.mp hmem with h | h
          · exact absurd h (by simp)
          rcases List.mem_cons.mp h with h2 | h2
          · exact absurd h2 (by simp)
          · exact hbody.2.2 hf n o h2
      | allow =>
          have hcall : r.executeCall call
              = ((r.executeCallBody call).1,
                 Event.validate call :: (r.executeCallBody call).2) := by
            simp only [Registry.executeCall, hsec, hval, hact]
          rw [hcall]
          refine ⟨fun h1 h2 => List.mem_cons_of_mem _ (hbody.1 h1 h2),
            fun h1 h2 s hs ha => hbody.2.1 h1 h2 s hs ha,
            fun hf n o hmem => ?_⟩
          rcases List.mem_cons.mp hmem with h | h
          · exact absurd h (by simp)
          · exact hbody.2.2 hf n o h

/-- Witness for C3: with the sanitizing client configured, the spy tool
executes (execution event in the trace) and its non-empty successful
output is scanned and replaced by `"X"` exactly. -/
theorem c3_scan_gating_witness :
    regSanitize.security = some secSanitize ∧
    regSanitize.get wCall.name = some wTool ∧
    wTool.exec wCall.input = Except.ok { output := "raw output", isError := false } ∧
    Event.execTool wCall.name wCall.input ∈ (regSanitize.executeCall wCall).2 ∧
    (((({ output := "raw output", isError := false } : Result).isError = false →
        ({ output := "raw output", isError := false } : Result).output ≠ "" →
        Event.scanOutput wCall.name
          ({ output := "raw output", isError := false } : Result).output
          ∈ (regSanitize.executeCall wCall).2) ∧
      (({ output := "raw output", isError := false } : Result).isError = false →
        ({ output := "raw output", isError := false } : Result).output ≠ "" →
        ∀ s, secSanitize.scan wCall.name
            ({ output := "raw output", isError := false } : Result).output
            = Except.ok s →
          s.action = ScanAction.sanitize →
          (regSanitize.executeCall wCall).1 =
            { callID := wCall.id, content := s.processedContent, isError := false }) ∧
      ((({ output := "raw output", isError := false } : Result).isError = true ∨
          ({ output := "raw output", isError := false } : Result).output = "") →
        ∀ n o, Event.scanOutput n o ∉ (regSanitize.executeCall wCall).2))) :=
  ⟨rfl, rfl, rfl, by decide,
    c3_scan_gating_and_sanitize regSanitize wCall secSanitize wTool
      { output := "raw output", isError := false } rfl rfl rfl (by decide)⟩

/-- Counterexample to C2 as stated: for a call whose name is not
registered, a configured Policy Client IS consulted — `ExecuteCall`
performs the pre-execution validation before the registry lookup, so the
validation event appears in the trace. -/
theorem c2_unknown_tool_counterexample :
    regEmptyAllow.get wCallUnknown.name = none ∧
    regEmptyAllow.security = some secAllow ∧
    Event.validate wCallUnknown ∈ (regEmptyAllow.executeCall wCallUnknown).2 := by
  refine ⟨rfl, rfl, ?_⟩
  simp [Registry.executeCall, Registry.executeCallBody, Registry.execute,
    regEmptyAllow, secAllow, vAllow, Registry.get, List.find?]

/-- C2 (amended): `ExecuteCall` for an unregistered name returns
`isError = true`, and neither any capability's `Execute` nor the
post-execution scan is ever invoked; the pre-execution validation of a
configured Policy Client, however, is still performed. -/
theorem c2_unknown_tool_amended (r : Registry) (call : Call)
    (h : r.get call.name = none) :
    (r.executeCall call).1.isError = true ∧
    (∀ name input, Event.execTool name input ∉ (r.executeCall call).2) ∧
    (∀ n o, Event.scanOutput n o ∉ (r.executeCall call).2) := by
  have hbody : r.executeCallBody call =
      ({ callID := call.id, content := "unknown tool: " ++ call.name,
         isError := true }, []) := by
    unfold Registry.executeCallBody Registry.execute
    rw [h]
    cases hs : r.security with
    | none => simp [CallResult.ofResult]
    | some security => simp [CallResult.ofResult]
  unfold Registry.executeCall
  cases hs : r.security with
  | none => simp [hbody]
  | some sec =>
      cases hv : sec.validate call with
      | error e => simp [hbody, hv]
      | ok v => cases hact : v.action <;> simp [hbody, hv, hact]

/-- Witness for the amended C2 at a concrete registry with a configured
(allowing) Policy Client and no registered tools. -/
theorem c2_unknown_tool_witness :
    regEmptyAllow.get wCallUnknown.name = none ∧
    ((regEmptyAllow.executeCall wCallUnknown).1.isError = true ∧
      (∀ name input,
        Event.execTool name input ∉ (regEmptyAllow.executeCall wCallUnknown).2) ∧
      (∀ n o, Event.scanOutput n o ∉ (regEmptyAllow.executeCall wCallUnknown).2)) :=
  ⟨rfl, c2_unknown_tool_amended regEmptyAllow wCallUnknown rfl⟩

/-- The plugin batch fold accumulates exactly the successfully loaded
manifests, in order. -/
theorem loadPlugins_foldl_eq (entries : List (Except String PluginManifest × String))
    (acc : List PluginTool) :
    entries.foldl
        (fun plugins entry =>
          match loadPlugin entry.1 entry.2 with
          | Except.error _ => plugins
          | Except.ok plugin => plugins ++ [plugin])
        acc
      = acc ++ entries.filterMap (fun entry => (loadPlugin entry.1 entry.2).toOption) := by
  induction entries generalizing acc with
  | nil => simp
  | cons e es ih =>
      cases hload : loadPlugin e.1 e.2 with
      | error msg => simp [List.foldl_cons, hload, ih, List.filterMap_cons, Except.toOption]
      | ok p => simp [List.foldl_cons, hload, ih, List.filterMap_cons, Except.toOption]

/-- Counterexample to C7 as stated: a manifest declaring BOTH a command
and a script is accepted by `loadPlugin`, though under the spec's
"declares exactly a command or a script" (read exclusively) it should
be rejected. -/
theorem c7_manifest_counterexample :
    loadPlugin (Except.ok mBoth) "/plugins"
      = Except.ok { manifest := mBoth, basePath := "/plugins" } ∧
    manifestAcceptedPerSpec mBoth = false := by
  constructor
  · rfl
  · rfl

/-- C7 (amended): a decoded manifest is accepted iff it has a non-empty
name, a non-empty description, and AT LEAST ONE of a command or a script
(a manifest declaring both is accepted, the command taking precedence at
execution time); a rejected or unreadable manifest is excluded while all
other manifests in the batch still load (the batch never fails). -/
theorem c7_manifest_validation (m : PluginManifest) (basePath : String)
    (entries : List (Except String PluginManifest × String)) :
    ((∃ p, loadPlugin (Except.ok m) basePath = Except.ok p) ↔
      (m.name ≠ "" ∧ m.description ≠ "" ∧ (m.command ≠ "" ∨ m.script ≠ ""))) ∧
    (∀ e, ∀ p, loadPlugin (Except.error e) basePath ≠ Except.ok p) ∧
    loadPlugins entries
      = entries.filterMap (fun entry => (loadPlugin entry.1 entry.2).toOption) := by
  refine ⟨?_, ?_, ?_⟩
  · constructor
    · rintro ⟨p, hp⟩
      unfold loadPlugin at hp
      by_cases h1 : m.name = "" <;> by_cases h2 : m.description = "" <;>
        by_cases h3 : m.command = "" <;> by_cases h4 : m.script = "" <;>
        simp [h1, h2, h3, h4] at hp ⊢
    · rintro ⟨h1, h2, h3⟩
      unfold loadPlugin
      rcases h3 with h3 | h3
      · by_cases h4 : m.script = "" <;> simp [h1, h2, h3, h4]
      · by_cases h4 : m.command = "" <;> simp [h1, h2, h3, h4]
  · intro e p
    unfold loadPlugin
    simp
  · exact loadPlugins_foldl_eq entries []

/-- Witness for the amended C7: a command-only manifest is accepted, and
a batch containing an invalid manifest still loads the valid one. -/
theorem c7_manifest_validation_witness :
    (mCommandOnly.name ≠ "" ∧ mCommandOnly.description ≠ "" ∧
      (mCommandOnly.command ≠ "" ∨ mCommandOnly.script ≠ "")) ∧
    (∃ p, loadPlugin (Except.ok mCommandOnly) "/plugins" = Except.ok p) ∧
    loadPlugins [(Except.ok mNoDescription, "/plugins"),
        (Except.ok mCommandOnly, "/plugins")]
      = [(Except.ok mNoDescription, "/plugins"),
          (Except.ok mCommandOnly, "/plugins")].filterMap
          (fun entry => (loadPlugin entry.1 entry.2).toOption) :=
  ⟨⟨by decide, by decide, Or.inl (by decide)⟩,
    (c7_manifest_validation mCommandOnly "/plugins" []).1.mpr
      ⟨by decide, by decide, Or.inl (by decide)⟩,
    (c7_manifest_validation mCommandOnly "/plugins"
      [(Except.ok mNoDescription, "/plugins"),
        (Except.ok mCommandOnly, "/plugins")]).2.2⟩

/-- C8 (amended): any two iteration orders of the same unmodified
registry's capability map yield `List` snapshots that are permutations
of each other — the same capabilities, in possibly different order. -/
theorem c8_list_snapshot_perm (r : Registry)
    (b1 b2 : List (String × Tool))
    (h1 : b1.Perm r.tools) (h2 : b2.Perm r.tools) :
    (Registry.listWith b1).Perm (Registry.listWith b2) := by
  unfold Registry.listWith
  exact (h1.map (fun p => p.2)).trans (h2.map (fun p => p.2)).symm

/-- Counterexample to C8 as stated: two runtime iteration orders of the
same two-tool registry produce `List` snapshots in different orders, so
`List` is not a stable-order snapshot. -/
theorem c8_list_order_counterexample :
    List.Perm [("w_tool", wTool), ("beta_tool", wToolBeta)] regTwo.tools ∧
    List.Perm [("beta_tool", wToolBeta), ("w_tool", wTool)] regTwo.tools ∧
    Registry.listWith [("w_tool", wTool), ("beta_tool", wToolBeta)]
      ≠ Registry.listWith [("beta_tool", wToolBeta), ("w_tool", wTool)] := by
  refine ⟨List.Perm.refl _, List.Perm.swap _ _ _, ?_⟩
  intro h
  have hhead : wTool = wToolBeta := by
    have := congrArg (fun l => l.head?) h
    simpa [Registry.listWith] using this
  have hname : wTool.name = wToolBeta.name := congrArg Tool.name hhead
  simp [wTool, wToolBeta] at hname

/-- Witness for the amended C8 at the concrete two-tool registry. -/
theorem c8_list_snapshot_perm_witness :
    List.Perm [("w_tool", wTool), ("beta_tool", wToolBeta)] regTwo.tools ∧
    List.Perm [("beta_tool", wToolBeta), ("w_tool", wTool)] regTwo.tools ∧
    (Registry.listWith [("w_tool", wTool), ("beta_tool", wToolBeta)]).Perm
      (Registry.listWith [("beta_tool", wToolBeta), ("w_tool", wTool)]) :=
  ⟨List.Perm.refl _, List.Perm.swap _ _ _,
    c8_list_snapshot_perm regTwo _ _ (List.Perm.refl _) (List.Perm.swap _ _ _)⟩

/-- `read_file` rejects with the sandbox error exactly when the absolute
path does not have the absolute allowed directory as a string prefix. -/
theorem readFile_sandbox_iff (t : ReadFileTool) (env : ReadFsEnv)
    (params : ReadFileInput) (hdir : t.allowedDir ≠ "") (hpath : params.path ≠ "") :
    (t.execute env params
        = { output := "file path outside allowed directory", isError := true })
      ↔ (strStartsWith (env.abs (resolvePath env.toPathEnv params.path))
          (env.abs t.allowedDir) = false) := by
  constructor
  · intro hres
    by_cases hsw : strStartsWith (env.abs (resolvePath env.toPathEnv params.path))
        (env.abs t.allowedDir) = true
    · exfalso
      cases hstat : env.stat (resolvePath env.toPathEnv params.path) with
      | error e =>
          simp [ReadFileTool.execute, hpath, hsw, hstat] at hres
          exact append_ne_of_not_dataPrefix "cannot access file: " e _ (by decide) hres
      | ok info =>
          by_cases hd : info.isDir
          · simp [ReadFileTool.execute, hpath, hsw, hstat, hd] at hres
          · cases hread : env.readFile (resolvePath env.toPathEnv params.path) with
            | error e =>
                simp [ReadFileTool.execute, hpath, hsw, hstat, hd, hread] at hres
                exact append_ne_of_not_dataPrefix "failed to read file: " e _
                  (by decide) hres
            | ok content =>
                simp [ReadFileTool.execute, hpath, hsw, hstat, hd, hread] at hres
    · exact Bool.not_eq_true _ ▸ (Bool.eq_false_iff.mpr hsw)
  · intro hsw
    simp [ReadFileTool.execute, hpath, hsw, hdir]

/-- `write_file` rejects with the sandbox error exactly when the absolute
path does not have the absolute allowed directory as a string prefix. -/
theorem writeFile_sandbox_iff (t : WriteFileTool) (env : WriteFsEnv)
    (params : WriteFileInput) (hdir : t.allowedDir ≠ "") (hpath : params.path ≠ "") :
    (t.execute env params
        = { output := "file path outside allowed directory", isError := true })
      ↔ (strStartsWith (env.abs (resolvePath env.toPathEnv params.path))
          (env.abs t.allowedDir) = false) := by
  constructor
  · intro hres
    by_cases hsw : strStartsWith (env.abs (resolvePath env.toPathEnv params.path))
        (env.abs t.allowedDir) = true
    · exfalso
      cases hmk : env.mkdirAll (env.dirOf (resolvePath env.toPathEnv params.path)) with
      | error e =>
          simp [WriteFileTool.execute, hpath, hsw, hmk] at hres
          exact append_ne_of_not_dataPrefix "failed to create directory: " e _
            (by decide) hres
      | ok u =>
          cases hw : env.writeFile (resolvePath env.toPathEnv params.path)
              params.content with
          | error e =>
              simp [WriteFileTool.execute, hpath, hsw, hmk, hw] at hres
              exact append_ne_of_not_dataPrefix "failed to write file: " e _
                (by decide) hres
          | ok u2 =>
              simp [WriteFileTool.execute, hpath, hsw, hmk, hw] at hres
    · exact Bool.not_eq_true _ ▸ (Bool.eq_false_iff.mpr hsw)
  · intro hsw
    simp [WriteFileTool.execute, hpath, hsw, hdir]

/-- `run_command` rejects with the sandbox error exactly when the
absolute working directory does not have the absolute allowed directory
as a string prefix. -/
theorem runCommand_sandbox_iff (t : RunCommandTool) (env : CmdEnv)
    (params : RunCommandInput) (hdir : t.allowedDir ≠ "")
    (hcmd : params.command ≠ "") :
    (t.execute env params
        = { output := "working directory outside allowed path", isError := true })
      ↔ (strStartsWith (env.abs (if params.workingDir = "" then env.cwd
            else params.workingDir)) (env.abs t.allowedDir) = false) := by
  constructor
  · intro hres
    by_cases hsw : strStartsWith (env.abs (if params.workingDir = "" then env.cwd
          else params.workingDir)) (env.abs t.allowedDir) = true
    · exfalso
      cases hrun : env.run params.command
          (if params.workingDir = "" then env.cwd else params.workingDir) with
      | timedOut =>
          simp [RunCommandTool.execute, hcmd, hsw, hrun] at hres
      | exitError out err =>
          simp [RunCommandTool.execute, hcmd, hsw, hrun] at hres
          refine string_ne_of_mem_data (Char.ofNat 10)
            (truncateOutput out "\n... (output truncated)" ++ "\nExit error: " ++ err)
            "working directory outside allowed path" ?_ (by decide) hres
          rw [String.data_append, String.data_append]
          exact List.mem_append.mpr (Or.inl (List.mem_append.mpr (Or.inr (by decide))))
      | ok out =>
          simp [RunCommandTool.execute, hcmd, hsw, hrun] at hres
    · exact Bool.not_eq_true _ ▸ (Bool.eq_false_iff.mpr hsw)
  · intro hsw
    simp [RunCommandTool.execute, hcmd, hsw, hdir]

/-- `list_directory` rejects with the sandbox error exactly when the
absolute path does not have the absolute allowed directory as a string
prefix. -/
theorem listDirectory_sandbox_iff (t : ListDirectoryTool) (env : ListFsEnv)
    (params : ListDirectoryInput) (hdir : t.allowedDir ≠ "") :
    (t.execute env params
        = { output := "directory path outside allowed directory", isError := true })
      ↔ (strStartsWith (env.abs (resolvePath env.toPathEnv
            (if params.path = "" then env.cwd else params.path)))
          (env.abs t.allowedDir) = false) := by
  constructor
  · intro hres
    by_cases hsw : strStartsWith (env.abs (resolvePath env.toPathEnv
          (if params.path = "" then env.cwd else params.path)))
        (env.abs t.allowedDir) = true
    · exfalso
      cases hrd : env.readDir (resolvePath env.toPathEnv
          (if params.path = "" then env.cwd else params.path)) with
      | error e =>
          simp [ListDirectoryTool.execute, hsw, hrd] at hres
          exact append_ne_of_not_dataPrefix "failed to read directory: " e _
            (by decide) hres
      | ok entries =>
          by_cases hempty : ((entries.filter
              (fun entry => params.showHidden || !(strStartsWith entry.name "."))).map
                formatDirEntry) = []
          · simp [ListDirectoryTool.execute, hsw, hrd, hempty] at hres
          · simp [ListDirectoryTool.execute, hsw, hrd, hempty] at hres
    · exact Bool.not_eq_true _ ▸ (Bool.eq_false_iff.mpr hsw)
  · intro hsw
    simp [ListDirectoryTool.execute, hsw, hdir]

/-- C9: for the file-read, file-write, command, and directory-listing
tools with `AllowedDir` set, a requested path (or working directory) is
rejected with the sandbox error result if and only if its absolute form
does not have the absolute form of `AllowedDir` as a STRING prefix; in
particular a sibling path whose absolute string merely extends
`AllowedDir`'s characters (here `/sandbox-extra` under allowed dir
`/sandbox`) passes the sandbox check and the operations proceed. -/
theorem c9_sandbox_is_string_prefix_check :
    (∀ (t : ReadFileTool) (env : ReadFsEnv) (params : ReadFileInput),
        t.allowedDir ≠ "" → params.path ≠ "" →
        ((t.execute env params
            = { output := "file path outside allowed directory", isError := true })
          ↔ (strStartsWith (env.abs (resolvePath env.toPathEnv params.path))
              (env.abs t.allowedDir) = false))) ∧
    (∀ (t : WriteFileTool) (env : WriteFsEnv) (params : WriteFileInput),
        t.allowedDir ≠ "" → params.path ≠ "" →
        ((t.execute env params
            = { output := "file path outside allowed directory", isError := true })
          ↔ (strStartsWith (env.abs (resolvePath env.toPathEnv params.path))
              (env.abs t.allowedDir) = false))) ∧
    (∀ (t : RunCommandTool) (env : CmdEnv) (params : RunCommandInput),
        t.allowedDir ≠ "" → params.command ≠ "" →
        ((t.execute env params
            = { output := "working directory outside allowed path", isError := true })
          ↔ (strStartsWith (env.abs (if params.workingDir = "" then env.cwd
                else params.workingDir)) (env.abs t.allowedDir) = false))) ∧
    (∀ (t : ListDirectoryTool) (env : ListFsEnv) (params : ListDirectoryInput),
        t.allowedDir ≠ "" →
        ((t.execute env params
            = { output := "directory path outside allowed directory", isError := true })
          ↔ (strStartsWith (env.abs (resolvePath env.toPathEnv
                (if params.path = "" then env.cwd else params.path)))
              (env.abs t.allowedDir) = false))) ∧
    (strStartsWith "/sandbox-extra/secret.txt" "/sandbox" = true ∧
      wReadTool.execute wReadEnv { path := "/sandbox-extra/secret.txt" }
        = { output := "secret", isError := false } ∧
      wWriteTool.execute wWriteEnv
          { path := "/sandbox-extra/out.txt", content := "hi" }
        = { output := "Successfully wrote 2 bytes to /sandbox-extra/out.txt",
            isError := false } ∧
      wCmdTool.execute wCmdEnv { command := "ls", workingDir := "/sandbox-extra" }
        = { output := "ran", isError := false }) :=
  ⟨readFile_sandbox_iff, writeFile_sandbox_iff, runCommand_sandbox_iff,
    listDirectory_sandbox_iff, by decide, by decide, by decide, by decide⟩

/-- Witness for C9: concrete rejections via the iff at `/etc/passwd`
(whose absolute form does not extend `/sandbox`). -/
theorem c9_sandbox_witness :
    (wReadTool.allowedDir ≠ "" ∧ ("/etc/passwd" : String) ≠ "" ∧
      (wReadTool.execute wReadEnv { path := "/etc/passwd" }
          = { output := "file path outside allowed directory", isError := true }
        ↔ (strStartsWith (wReadEnv.abs (resolvePath wReadEnv.toPathEnv "/etc/passwd"))
            (wReadEnv.abs wReadTool.allowedDir) = false))) ∧
    (wCmdTool.allowedDir ≠ "" ∧ ("ls" : String) ≠ "" ∧
      (wCmdTool.execute wCmdEnv { command := "ls", workingDir := "/etc" }
          = { output := "working directory outside allowed path", isError := true }
        ↔ (strStartsWith (wCmdEnv.abs (if ("/etc" : String) = "" then wCmdEnv.cwd else "/etc"))
            (wCmdEnv.abs wCmdTool.allowedDir) = false))) :=
  ⟨⟨by decide, by decide,
      c9_sandbox_is_string_prefix_check.1 wReadTool wReadEnv { path := "/etc/passwd" }
        (by decide) (by decide)⟩,
   ⟨by decide, by decide,
      c9_sandbox_is_string_prefix_check.2.2.1 wCmdTool wCmdEnv
        { command := "ls", workingDir := "/etc" } (by decide) (by decide)⟩⟩

/-- Processing one block never decreases the tool-result count. -/
theorem processBlock_toolResults_le (reg : Option Registry) (acc : TurnAcc)
    (b : Block) : acc.toolResults ≤ (processBlock reg acc b).toolResults := by
  cases b with
  | text s => exact Nat.le_refl _
  | toolUse id name input =>
      by_cases hname : name = ""
      · simp [processBlock, hname]
      · cases reg with
        | none => simp [processBlock, hname]
        | some r => simp [processBlock, hname]

/-- Folding block processing never decreases the tool-result count. -/
theorem foldl_processBlock_toolResults_le (reg : Option Registry)
    (blocks : List Block) :
    ∀ acc : TurnAcc,
      acc.toolResults ≤ (blocks.foldl (processBlock reg) acc).toolResults := by
  induction blocks with
  | nil => intro acc; exact Nat.le_refl _
  | cons b bs ih =>
      intro acc
      exact Nat.le_trans (processBlock_toolResults_le reg acc b) (ih _)

/-- With a registry configured, a response containing a `tool_use`
request with a non-empty name yields at least one tool result. -/
theorem processBlocks_toolResults_ne_zero (r : Registry) (blocks : List Block)
    (h : ∃ id name input, Block.toolUse id name input ∈ blocks ∧ name ≠ "") :
    (processBlocks (some r) blocks).toolResults ≠ 0 := by
  unfold processBlocks
  suffices hgen : ∀ acc : TurnAcc,
      (∃ id name input, Block.toolUse id name input ∈ blocks ∧ name ≠ "") →
      acc.toolResults < (blocks.foldl (processBlock (some r)) acc).toolResults by
    have := hgen { responseText := "", toolCalls := [], toolResults := 0 } h
    omega
  clear h
  induction blocks with
  | nil =>
      rintro acc ⟨id, name, input, hmem, hname⟩
      simp at hmem
  | cons b bs ih =>
      rintro acc ⟨id, name, input, hmem, hname⟩
      rcases List.mem_cons.mp hmem with heq | hmem2
      · have hstep : (processBlock (some r) acc b).toolResults
            = acc.toolResults + 1 := by
          rw [← heq]
          simp [processBlock, hname]
        have hmono := foldl_processBlock_toolResults_le (some r) bs
          (processBlock (some r) acc b)
        simp only [List.foldl_cons]
        omega
      · have := ih (processBlock (some r) acc b) ⟨id, name, input, hmem2, hname⟩
        have hmono := processBlock_toolResults_le (some r) acc b
        simp only [List.foldl_cons]
        omega

/-- When every remaining turn produces at least one tool result, the
agent loop exhausts its budget, accumulating every turn's tool calls in
order. -/
theorem runAgentAux_exhausts (r : Registry)
    (completion : Nat → Except String (List Block)) (B : Nat → List Block)
    (m : Nat) :
    ∀ (remaining iteration : Nat) (acc : AgentResult),
      (∀ j, j < remaining → completion (iteration + j) = Except.ok (B (iteration + j))) →
      (∀ j, j < remaining →
        (processBlocks (some r) (B (iteration + j))).toolResults ≠ 0) →
      runAgentAux (some r) completion m remaining iteration acc =
        RunOutcome.maxIterationsReached
          { response := acc.response,
            toolCalls := acc.toolCalls ++
              (List.range' iteration remaining).flatMap
                (fun i => (processBlocks (some r) (B i)).toolCalls),
            iterations := if remaining = 0 then acc.iterations
              else iteration + remaining }
          m := by
  intro remaining
  induction remaining with
  | zero =>
      intro iteration acc h1 h2
      simp [runAgentAux]
  | succ rem ih =>
      intro iteration acc h1 h2
      have hc : completion iteration = Except.ok (B iteration) := by
        have := h1 0 (Nat.succ_pos _)
        simpa using this
      have hnz : (processBlocks (some r) (B iteration)).toolResults ≠ 0 := by
        have := h2 0 (Nat.succ_pos _)
        simpa using this
      have h1' : ∀ j, j < rem →
          completion ((iteration + 1) + j) = Except.ok (B ((iteration + 1) + j)) := by
        intro j hj
        have := h1 (j + 1) (by omega)
        have harith : iteration + (j + 1) = (iteration + 1) + j := by omega
        rwa [harith] at this
      have h2' : ∀ j, j < rem →
          (processBlocks (some r) (B ((iteration + 1) + j))).toolResults ≠ 0 := by
        intro j hj
        have := h2 (j + 1) (by omega)
        have harith : iteration + (j + 1) = (iteration + 1) + j := by omega
        rwa [harith] at this
      simp only [runAgentAux, hc, hnz, if_neg hnz]
      rw [ih (iteration + 1) _ h1' h2']
      have hrange : List.range' iteration (rem + 1)
          = iteration :: List.range' (iteration + 1) rem := List.range'_succ _ _ _
      rw [hrange]
      simp only [List.flatMap_cons, List.append_assoc]
      cases rem with
      | zero => simp
      | succ rem2 =>
          simp only [if_neg (Nat.succ_ne_zero _)]
          have : (iteration + 1) + (rem2 + 1) = iteration + (rem2 + 1 + 1) := by omega
          rw [this]
          simp

/-- C5: when each of the first `maxIterations` completion turns requests
at least one invocation (non-empty name) and a registry is configured,
`RunAgent` returns the max-iterations error together with an
`AgentResult` whose `toolCalls` contains exactly the invocations executed
across all turns, in execution order, and whose `iterations` equals
`maxIterations`. -/
theorem c5_max_iterations_preserves_toolcalls (r : Registry)
    (completion : Nat → Except String (List Block)) (B : Nat → List Block)
    (m : Nat) (hm : m ≠ 0)
    (hc : ∀ i, i < m → completion i = Except.ok (B i))
    (hinv : ∀ i, i < m →
      ∃ id name input, Block.toolUse id name input ∈ B i ∧ name ≠ "") :
    runAgent (some r) completion m =
      RunOutcome.maxIterationsReached
        { response := "",
          toolCalls := (List.range m).flatMap
            (fun i => (processBlocks (some r) (B i)).toolCalls),
          iterations := m }
        m := by
  unfold runAgent
  rw [if_neg hm]
  have h1 : ∀ j, j < m → completion (0 + j) = Except.ok (B (0 + j)) := by
    intro j hj
    simpa using hc j hj
  have h2 : ∀ j, j < m →
      (processBlocks (some r) (B (0 + j))).toolResults ≠ 0 := by
    intro j hj
    have := processBlocks_toolResults_ne_zero r (B j) (hinv j hj)
    simpa using this
  rw [runAgentAux_exhausts r completion B m m 0 _ h1 h2]
  rw [if_neg hm, List.range_eq_range' m]
  simp

/-- Witness for C5: a Completion Service that requests a `w_tool`
invocation on every turn exhausts `maxIterations = 3`, preserving the
three executed tool calls. -/
theorem c5_max_iterations_witness :
    (3 : Nat) ≠ 0 ∧
    runAgent (some wAgentReg) wCompletion 3 =
      RunOutcome.maxIterationsReached
        { response := "",
          toolCalls := (List.range 3).flatMap
            (fun i => (processBlocks (some wAgentReg) (wB i)).toolCalls),
          iterations := 3 }
        3 :=
  ⟨by decide,
    c5_max_iterations_preserves_toolcalls wAgentReg wCompletion wB 3 (by decide)
      (fun i _ => rfl)
      (fun i _ => ⟨"tu-1", "w_tool", none, by simp [wB, wBlocks], by decide⟩)⟩

end Bast
